import Mathlib

/-!
A shallow embedding of the goa response DSL (`rest/design/dsl/response.go`)
and of the publicizer code synthesizer (the `codegen` part of the same
source), together with theorems settling the spec claims about them.

The embedding follows the Go source: the DSL evaluator becomes explicit
state passing over an evaluation-context value plus a diagnostic list, and
the synthesizer becomes a recursive text-producing function over the schema
node type.  External collaborators that the source only calls (the `design`
package lookups, `Goify`, `GoTypeRef`, `GoTypeDef`, template rendering) are
modelled from the spec's boundary contracts and marked as such.
-/

set_option maxHeartbeats 1000000

namespace GoaSpec

/-! ## Schema nodes (the `design` package data model)

`design.DataType` is an open Go interface.  Its structural implementations
are primitives, objects, arrays, maps (`hash`), user types and media types
(both of which wrap an attribute).  The `unsupported` constructor models any
other implementation of the interface: the spec (§4.4, §9) explicitly
contemplates a schema node matching none of the four structural
classifications.  Object fields are kept in declared order (spec §4.4:
"field order is the Object's declared field order"). -/

mutual

inductive GoDataType where
  | primitive (name : String)
  | object (fields : Fields)
  | array (elem : AttributeExpr)
  | hash (key : AttributeExpr) (elem : AttributeExpr)
  | userType (name : String) (attr : AttributeExpr)
  | mediaType (identifier : String) (attr : AttributeExpr)
  | unsupported (name : String)

inductive Fields where
  | nil
  | cons (name : String) (attr : AttributeExpr) (rest : Fields)

inductive AttributeExpr where
  | mk (typ : GoDataType) (required : List String)

end

def AttributeExpr.typ : AttributeExpr → GoDataType
  | .mk t _ => t

def AttributeExpr.required : AttributeExpr → List String
  | .mk _ r => r

/-- `att.AllRequired` returns the names of the required fields (the
`AllRequired` method of `design.AttributeExpr`). -/
def AttributeExpr.AllRequired (a : AttributeExpr) : List String := a.required

def Fields.toList : Fields → List (String × AttributeExpr)
  | .nil => []
  | .cons n a rest => (n, a) :: rest.toList

/-- Modelled from the spec (§4.3): classification resolves named/reference
types (user types and media types) to their underlying structural shape,
iterating through chains of references. -/
def resolve : GoDataType → GoDataType
  | .userType _ (.mk t _) => resolve t
  | .mediaType _ (.mk t _) => resolve t
  | .primitive n => .primitive n
  | .object f => .object f
  | .array e => .array e
  | .hash k v => .hash k v
  | .unsupported n => .unsupported n

/-- Modelled from the spec (§4.3): `design.IsPrimitive`. -/
def IsPrimitive (t : GoDataType) : Bool :=
  match resolve t with
  | .primitive _ => true
  | _ => false

/-- Modelled from the spec (§4.3): `design.IsObject`. -/
def IsObject (t : GoDataType) : Bool :=
  match resolve t with
  | .object _ => true
  | _ => false

/-- Modelled from the spec (§4.3): `design.IsArray`. -/
def IsArray (t : GoDataType) : Bool :=
  match resolve t with
  | .array _ => true
  | _ => false

/-- Modelled from the spec (§4.3): `design.IsMap` (`IsHash` in the source's
vocabulary). -/
def IsMap (t : GoDataType) : Bool :=
  match resolve t with
  | .hash _ _ => true
  | _ => false

/-- Modelled from the spec (§4.3): `design.AsObject` returns the underlying
object's fields, resolving references, and none when the node is not an
object. -/
def AsObject (t : GoDataType) : Option Fields :=
  match resolve t with
  | .object f => some f
  | _ => none

/-- Modelled from the spec (§4.3): `design.AsArray`. -/
def AsArray (t : GoDataType) : Option AttributeExpr :=
  match resolve t with
  | .array e => some e
  | _ => none

/-- Modelled from the spec (§4.3): `design.AsMap` returns the key and
element attributes. -/
def AsMap (t : GoDataType) : Option (AttributeExpr × AttributeExpr) :=
  match resolve t with
  | .hash k v => some (k, v)
  | _ => none

/-! Sizes, used only as the termination measure of the synthesizer. -/

mutual

def GoDataType.size : GoDataType → Nat
  | .primitive _ => 1
  | .object f => 1 + f.size
  | .array e => 1 + e.size
  | .hash k v => 1 + k.size + v.size
  | .userType _ a => 1 + a.size
  | .mediaType _ a => 1 + a.size
  | .unsupported _ => 1

def Fields.size : Fields → Nat
  | .nil => 0
  | .cons _ a rest => a.size + rest.size

def AttributeExpr.size : AttributeExpr → Nat
  | .mk t _ => 1 + t.size

end

theorem AttributeExpr.size_pos (a : AttributeExpr) : 0 < a.size := by
  cases a with
  | mk t r => simp [AttributeExpr.size]

theorem resolve_size_le : (t : GoDataType) → (resolve t).size ≤ t.size
  | .userType _ (.mk ty _) =>
      Nat.le_trans (resolve_size_le ty)
        (by simp [GoDataType.size, AttributeExpr.size]; omega)
  | .mediaType _ (.mk ty _) =>
      Nat.le_trans (resolve_size_le ty)
        (by simp [GoDataType.size, AttributeExpr.size]; omega)
  | .primitive _ => Nat.le_refl _
  | .object _ => Nat.le_refl _
  | .array _ => Nat.le_refl _
  | .hash _ _ => Nat.le_refl _
  | .unsupported _ => Nat.le_refl _

theorem AsArray_size {t : GoDataType} {e : AttributeExpr}
    (h : AsArray t = some e) : e.size < t.size := by
  unfold AsArray at h
  have hle := resolve_size_le t
  cases hr : resolve t <;> rw [hr] at h <;> simp at h
  subst h
  rw [hr] at hle
  simp [GoDataType.size] at hle
  omega

theorem AsMap_size {t : GoDataType} {k v : AttributeExpr}
    (h : AsMap t = some (k, v)) : k.size < t.size ∧ v.size < t.size := by
  unfold AsMap at h
  have hle := resolve_size_le t
  cases hr : resolve t <;> rw [hr] at h <;> simp at h
  obtain ⟨hk, hv⟩ := h
  subst hk; subst hv
  rw [hr] at hle
  simp [GoDataType.size] at hle
  omega

theorem AsObject_size {t : GoDataType} {f : Fields}
    (h : AsObject t = some f) : f.size + 1 ≤ t.size := by
  unfold AsObject at h
  have hle := resolve_size_le t
  cases hr : resolve t <;> rw [hr] at h <;> simp at h
  subst h
  rw [hr] at hle
  simp [GoDataType.size] at hle
  omega

theorem AsArray_attr_size {att e : AttributeExpr}
    (h : AsArray att.typ = some e) : e.size < att.size := by
  cases att with
  | mk t r =>
      have := AsArray_size (t := t) h
      simp [AttributeExpr.size]
      omega

theorem AsMap_attr_size {att k v : AttributeExpr}
    (h : AsMap att.typ = some (k, v)) : k.size < att.size ∧ v.size < att.size := by
  cases att with
  | mk t r =>
      have := AsMap_size (t := t) h
      simp [AttributeExpr.size]
      omega

theorem AsObject_attr_size {att : AttributeExpr} {f : Fields}
    (h : AsObject att.typ = some f) : f.size + 2 ≤ att.size := by
  cases att with
  | mk t r =>
      have := AsObject_size (t := t) h
      simp [AttributeExpr.size]
      omega

/-! ## The response expression model and the DSL evaluator

Transliterated from `rest/design/dsl/response.go` (`Response`, `Status`,
`executeResponseDSL`).  Fields of `design.HTTPResponseExpr` not touched by
these operations (headers, description, the `Parent` back-reference — spec
§3: lookup only, never owning) are omitted.  Defaults mirror Go zero
values. -/

structure HTTPResponseExpr where
  name : String
  status : Nat := 0
  mediaType : String := ""
  typ : Option GoDataType := none
  standard : Bool := false

/-- Modelled from the spec (§4.1): `duplicate` performs a structural deep
copy; on immutable Lean values this is the copy of every field. -/
def HTTPResponseExpr.Dup (r : HTTPResponseExpr) : HTTPResponseExpr := r

structure ResourceExpr where
  mediaType : String := ""
  responses : List HTTPResponseExpr := []

structure ActionExpr where
  resource : ResourceExpr := {}
  responses : List HTTPResponseExpr := []

/-- Modelled from the spec (§4.1): `lookup(scope, name)` finds a response by
name in a resource's collection; equality is by name string. -/
def ResourceExpr.Response (r : ResourceExpr) (name : String) :
    Option HTTPResponseExpr :=
  r.responses.find? (fun resp => resp.name == name)

/-- Modelled from the spec (§4.1): `lookup(scope, name)` finds a response by
name in an action's collection; equality is by name string. -/
def ActionExpr.Response (a : ActionExpr) (name : String) :
    Option HTTPResponseExpr :=
  a.responses.find? (fun resp => resp.name == name)

structure DesignRoot where
  responses : List HTTPResponseExpr := []
  defaultResponses : List HTTPResponseExpr := []

/-- Modelled from the spec (§6): `lookupUserResponse` — read-only query for
a user-defined response with the exact name in the global registry. -/
def DesignRoot.Response (root : DesignRoot) (name : String) :
    Option HTTPResponseExpr :=
  root.responses.find? (fun resp => resp.name == name)

/-- Modelled from the spec (§6): `lookupDefaultResponseTemplate` — read-only
query for a built-in default response template with the given name. -/
def DesignRoot.DefaultResponse (root : DesignRoot) (name : String) :
    Option HTTPResponseExpr :=
  root.defaultResponses.find? (fun resp => resp.name == name)

/-- The `eval.Current()` evaluation context: which expression the currently
executing configuration block mutates. -/
inductive EvalContext where
  | action (a : ActionExpr)
  | resource (r : ResourceExpr)
  | response (r : HTTPResponseExpr)
  | other

/-- The error kinds reported by the modelled operations to the diagnostic
collector (`eval.ReportError` / `eval.IncompatibleDSL`).  `dslFailed` stands
for `eval.Execute` returning false — the block's own errors were already
collected inside it. -/
inductive Err where
  | duplicateDefinition (name : String)
  | invalidTemplateParameter
  | noResponseTemplate (name : String)
  | dslFailed
  | incompatibleDSL

/-- One element of the heterogeneous `paramsAndDSL ...interface{}` argument
list: a string, a `design.DataType`, a `func()` configuration block
(modelled as a state transformer on the response under construction, none
meaning the block reported errors), or any other value. -/
inductive Arg where
  | str (s : String)
  | dtype (d : GoDataType)
  | block (b : HTTPResponseExpr → Option HTTPResponseExpr)
  | other

/-- `if dsl, ok = d.(func()); ok { paramsAndDSL = paramsAndDSL[:len-1] }` —
extract a trailing configuration block. -/
def extractDSL (args : List Arg) :
    Option (HTTPResponseExpr → Option HTTPResponseExpr) × List Arg :=
  match args.getLast? with
  | some (Arg.block b) => (some b, args.dropLast)
  | _ => (none, args)

/-- `if dt, ok = t.(apidesign.DataType); ok { paramsAndDSL = paramsAndDSL[1:] }`
— extract a leading body-type token from the remaining arguments. -/
def extractDT (args : List Arg) : Option GoDataType × List Arg :=
  match args with
  | Arg.dtype d :: rest => (some d, rest)
  | _ => (none, args)

/-- The positional arguments left after extracting the trailing block and
the leading body-type token: the (unsupported) template parameters. -/
def residualParams (args : List Arg) : List Arg :=
  (extractDT (extractDSL args).2).2

/-- The loop `params[i], ok = p.(string)`: every residual positional
argument must be a string, the first non-string one is reported. -/
def paramsOf : List Arg → Except Err (List String)
  | [] => .ok []
  | Arg.str s :: rest => (paramsOf rest).map (fun ps => s :: ps)
  | _ :: _ => .error Err.invalidTemplateParameter

/-- Base-expression resolution of `executeResponseDSL`: user-defined
registry response first, then built-in default template (marked standard),
then a fresh expression with only the name set. -/
def baseResponse (root : DesignRoot) (name : String) : HTTPResponseExpr :=
  match root.Response name with
  | some ar => ar.Dup
  | none =>
      match root.DefaultResponse name with
      | some ar => { ar.Dup with standard := true }
      | none => { name := name }

/-- `if dsl != nil { if !eval.Execute(dsl, resp) { return nil };
resp.Standard = false }`. -/
def applyDSLBlock (dsl : Option (HTTPResponseExpr → Option HTTPResponseExpr))
    (resp : HTTPResponseExpr) : Option HTTPResponseExpr :=
  match dsl with
  | none => some resp
  | some b =>
      match b resp with
      | none => none
      | some r => some { r with standard := false }

/-- `if dt != nil { if mt, ok := dt.(*apidesign.MediaTypeExpr); ok {
resp.MediaType = mt.Identifier }; resp.Type = dt; resp.Standard = false }`. -/
def applyBodyType (dt : Option GoDataType) (resp : HTTPResponseExpr) :
    HTTPResponseExpr :=
  match dt with
  | none => resp
  | some d =>
      let resp1 :=
        match d with
        | .mediaType ident _ => { resp with mediaType := ident }
        | _ => resp
      { resp1 with typ := some d, standard := false }

/-- `executeResponseDSL` from `rest/design/dsl/response.go`: parse the
argument list, reject residual template parameters, resolve the base
expression, run the configuration block, apply the body-type token. -/
def executeResponseDSL (root : DesignRoot) (name : String) (args : List Arg) :
    Except Err HTTPResponseExpr :=
  match paramsOf (residualParams args) with
  | .error e => .error e
  | .ok params =>
      if params.length > 0 then .error (Err.noResponseTemplate name)
      else
        match applyDSLBlock (extractDSL args).1 (baseResponse root name) with
        | none => .error Err.dslFailed
        | some resp => .ok (applyBodyType (extractDT (extractDSL args).2).1 resp)

/-- `if resp.Status == 200 && resp.MediaType == "" { resp.MediaType = mt }`
— the default media type fill applied by `Response` before attaching. -/
def fillDefault (mt : String) (resp : HTTPResponseExpr) : HTTPResponseExpr :=
  if resp.status == 200 && resp.mediaType == "" then
    { resp with mediaType := mt }
  else resp

/-- The `Response` DSL function: dispatch on the current evaluation context,
reject duplicate names, build the expression, fill the default media type
and attach it to the owning scope.  Returns the updated context together
with the diagnostics reported during the call. -/
def Response (root : DesignRoot) (ctx : EvalContext) (name : String)
    (args : List Arg) : EvalContext × List Err :=
  match ctx with
  | .action a =>
      if (a.Response name).isSome then
        (.action a, [Err.duplicateDefinition name])
      else
        match executeResponseDSL root name args with
        | .ok resp =>
            (.action { a with
              responses := a.responses ++ [fillDefault a.resource.mediaType resp] },
             [])
        | .error e => (.action a, [e])
  | .resource r =>
      if (r.Response name).isSome then
        (.resource r, [Err.duplicateDefinition name])
      else
        match executeResponseDSL root name args with
        | .ok resp =>
            (.resource { r with
              responses := r.responses ++ [fillDefault r.mediaType resp] },
             [])
        | .error e => (.resource r, [e])
  | .response r => (.response r, [Err.incompatibleDSL])
  | .other => (.other, [Err.incompatibleDSL])

/-- The `Status` DSL function: sets the status field when the current
evaluation context is a response expression, otherwise reports
`eval.IncompatibleDSL` and changes nothing. -/
def Status (ctx : EvalContext) (status : Nat) : EvalContext × List Err :=
  match ctx with
  | .response r => (.response { r with status := status }, [])
  | _ => (ctx, [Err.incompatibleDSL])

/-- Whether the evaluation context is a scope (action or resource) holding a
response with the given name. -/
def scopeHasResponse : EvalContext → String → Bool
  | .action a, n => (a.Response n).isSome
  | .resource r, n => (r.Response n).isSome
  | _, _ => false

/-! ## The publicization synthesizer (the `codegen` part of the source)

The template renderer is a pure function of template and context (spec §6);
each template constant of the source is transliterated into a Lean function
producing the exact text the template renders. -/

/-- `Tabs(depth)`: the indentation prefix, one tab per depth level. -/
def Tabs (depth : Nat) : String := String.mk (List.replicate depth '\t')

/-- Modelled from the spec (§6): the identifier transform
`exportedName(raw, exported)` — a pure, deterministic function producing an
exported identifier; modelled as first-letter capitalization. -/
def Goify (n : String) (exported : Bool) : String :=
  if exported then n.capitalize else n

/-- Modelled from the spec (§6): type rendering for the target language, a
pure deterministic function of the schema node. -/
def goTypeName : GoDataType → String
  | .primitive n => n
  | .object _ => "*struct"
  | .array (.mk t _) => "[]" ++ goTypeName t
  | .hash (.mk k _) (.mk v _) => "map[" ++ goTypeName k ++ "]" ++ goTypeName v
  | .userType n _ => "*" ++ n
  | .mediaType ident _ => "*" ++ ident
  | .unsupported n => n

/-- Modelled from the spec (§6): `gotyperef` as used by the templates. -/
def GoTypeRef (t : GoDataType) (required : List String) (depth : Nat)
    (ptr : Bool) : String :=
  goTypeName t

/-- Modelled from the spec (§6): `gotypedef` as used by the object
template. -/
def GoTypeDef (att : AttributeExpr) (depth : Nat) (p1 p2 : Bool) : String :=
  goTypeName att.typ

/-- The rendering of `simplePublicizeTmpl`:
`{{tabs}}{{target}} {{if init}}:{{end}}= {{if dereference}}*{{end}}{{source}}`. -/
def simplePublicize (sourceField targetField : String) (dereference : Bool)
    (depth : Nat) (ini : Bool) : String :=
  Tabs depth ++ targetField ++ " " ++ (if ini then ":" else "") ++ "= " ++
    (if dereference then "*" else "") ++ sourceField

/-- The rendering of `recursivePublicizeTmpl`:
`{{tabs}}{{target}} {{if init}}:{{end}}= {{source}}.Publicize()`. -/
def recursivePublicize (sourceField targetField : String) (depth : Nat)
    (ini : Bool) : String :=
  Tabs depth ++ targetField ++ " " ++ (if ini then ":" else "") ++ "= " ++
    sourceField ++ ".Publicize()"

/-- Modelled from the spec (§4.4): `att.IsPrimitivePointer(n)` — field `n`
is represented as a pointer to a primitive, i.e. it is a primitive field
that is not required. -/
def AttributeExpr.IsPrimitivePointer (a : AttributeExpr) (n : String) : Bool :=
  match AsObject a.typ with
  | some flds =>
      match flds.toList.lookup n with
      | some catt => IsPrimitive catt.typ && !(a.required.contains n)
      | none => false
  | none => false

/-- `if ut, ok := att.Type.(design.UserType); ok { att = ut.Attribute() }` —
both `*UserTypeExpr` and `*MediaTypeExpr` implement `design.UserType`. -/
def unwrapUserType (att : AttributeExpr) : AttributeExpr :=
  match att.typ with
  | .userType _ a => a
  | .mediaType _ a => a
  | _ => att

mutual

/-- `Publicizer` from the codegen source: publicizes a single attribute
based on its type, dispatching in the fixed order primitive, object, array,
map; a node matching none of them yields empty output. -/
def Publicizer (att : AttributeExpr) (sourceField targetField : String)
    (dereference : Bool) (depth : Nat) (ini : Bool) : String :=
  if IsPrimitive att.typ then
    simplePublicize sourceField targetField dereference depth ini
  else if IsObject att.typ then
    match att.typ with
    | .mediaType _ _ => recursivePublicize sourceField targetField depth ini
    | .userType _ _ => recursivePublicize sourceField targetField depth ini
    | _ =>
        Tabs depth ++ targetField ++ " = &" ++ GoTypeDef att depth true false ++
          "\x7b\x7d\n" ++ RecursivePublicizer att sourceField targetField depth
  else if IsArray att.typ then
    match harr : AsArray att.typ with
    | some elemAtt =>
        if IsObject elemAtt.typ then
          Tabs depth ++ targetField ++ " " ++ (if ini then ":" else "") ++
            "= make(" ++ GoTypeRef att.typ att.AllRequired depth false ++
            ", len(" ++ sourceField ++ "))\n" ++
          Tabs depth ++ "for i" ++ toString depth ++ ", elem" ++
            toString depth ++ " := range " ++ sourceField ++ " \x7b\n" ++
          Tabs depth ++
            Publicizer elemAtt ("elem" ++ toString depth)
              (targetField ++ "[i" ++ toString depth ++ "]") dereference
              (depth + 1) false ++ "\n" ++
          Tabs depth ++ "\x7d"
        else
          simplePublicize sourceField targetField dereference depth ini
    | none => ""
  else if IsMap att.typ then
    match hmap : AsMap att.typ with
    | some (kAtt, vAtt) =>
        if IsObject kAtt.typ || IsObject vAtt.typ then
          Tabs depth ++ targetField ++ " " ++ (if ini then ":" else "") ++
            "= make(" ++ GoTypeRef att.typ att.AllRequired depth false ++
            ", len(" ++ sourceField ++ "))\n" ++
          Tabs depth ++ "for k" ++ toString depth ++ ", v" ++
            toString depth ++ " := range " ++ sourceField ++ " \x7b\n" ++
          Tabs depth ++
            Publicizer kAtt ("k" ++ toString depth) ("pubk" ++ toString depth)
              dereference (depth + 1) true ++ "\n" ++
          Tabs depth ++
            Publicizer vAtt ("v" ++ toString depth) ("pubv" ++ toString depth)
              dereference (depth + 1) true ++ "\n" ++
          Tabs depth ++ "\t" ++ targetField ++ "[pubk" ++ toString depth ++
            "] = pubv" ++ toString depth ++ "\n" ++
          Tabs depth ++ "\x7d"
        else
          simplePublicize sourceField targetField dereference depth ini
    | none => ""
  else ""
termination_by 4 * att.size + 2
decreasing_by
  all_goals first
    | omega
    | (have hlt := AsArray_attr_size harr; omega)
    | (have hlt := (AsMap_attr_size hmap).1; omega)
    | (have hlt := (AsMap_attr_size hmap).2; omega)

/-- `RecursivePublicizer` from the codegen source: produces the code copying
every field of an object from the private struct to the public struct, one
publication per field, joined by newlines. -/
def RecursivePublicizer (att : AttributeExpr) (source target : String)
    (depth : Nat) : String :=
  String.intercalate "\n" (recursivePublications att source target depth)
termination_by 4 * att.size + 1

/-- The publication list built by `RecursivePublicizer`'s
`o.WalkAttributes` loop (empty when the attribute is not an object). -/
def recursivePublications (att : AttributeExpr) (source target : String)
    (depth : Nat) : List String :=
  match hobj : AsObject att.typ with
  | some flds => walkFields (unwrapUserType att) flds source target depth
  | none => []
termination_by 4 * att.size
decreasing_by
  have hle := AsObject_attr_size hobj
  simp [Fields.size]
  omega

/-- The body of the `WalkAttributes` callback: for each declared field,
recursively publicize it (dereferencing required primitive fields) and wrap
the publication in an `if source field != nil` guard. -/
def walkFields (att : AttributeExpr) (flds : Fields) (source target : String)
    (depth : Nat) : List String :=
  match flds with
  | .nil => []
  | .cons n catt rest =>
      (Tabs depth ++ "if " ++ source ++ "." ++ Goify n true ++ " != nil \x7b\n" ++
        Publicizer catt (source ++ "." ++ Goify n true)
          (target ++ "." ++ Goify n true)
          (IsPrimitive catt.typ && !(att.IsPrimitivePointer n)) (depth + 1)
          false ++
        "\n" ++ Tabs depth ++ "\x7d") ::
      walkFields att rest source target depth
termination_by 4 * flds.size + 3
decreasing_by
  all_goals simp [Fields.size]
  all_goals first
    | omega
    | exact AttributeExpr.size_pos a

end

/-- Whether the evaluation context is a response expression (the target
`Status` requires). -/
def isResponseContext : EvalContext → Bool
  | .response _ => true
  | _ => false

/-! ## Concrete fixtures used by the witnesses and counterexamples -/

def actC1 : ActionExpr := { responses := [{ name := "OK" }] }

def rootC5 : DesignRoot :=
  { defaultResponses := [{ name := "NotFound", status := 404 }] }

def rootC6 : DesignRoot :=
  { defaultResponses := [{ name := "OK", status := 200 }] }

def actC6 : ActionExpr := { resource := { mediaType := "application/vnd.goa" } }

def resC6 : ResourceExpr := { mediaType := "application/vnd.res" }

def respC6 : HTTPResponseExpr := { name := "OK", status := 200, standard := true }

def respC8 : HTTPResponseExpr := { name := "Created" }

def rootC9 : DesignRoot :=
  { defaultResponses := [{ name := "OK", status := 200 }] }

def respC9 : HTTPResponseExpr := { name := "OK", status := 200 }

/-- An anonymous object with one optional primitive field `a` and one
required nested user-type (object) field `b`. -/
def userC2 : AttributeExpr :=
  .mk (.userType "Account"
        (.mk (.object (.cons "href" (.mk (.primitive "String") []) .nil)) []))
    []

def objC2 : AttributeExpr :=
  .mk (.object (.cons "a" (.mk (.primitive "Int") []) (.cons "b" userC2 .nil)))
    ["b"]

/-- An array of primitives: its element's classification is primitive. -/
def elemPrimC3 : AttributeExpr := .mk (.primitive "String") []

def arrPrimC3 : AttributeExpr := .mk (.array elemPrimC3) []

/-- A user-type element whose underlying structure is an object. -/
def elemObjC3 : AttributeExpr :=
  .mk (.userType "Bottle"
        (.mk (.object (.cons "id" (.mk (.primitive "Int") []) .nil)) []))
    []

/-- An array whose element type is an object. -/
def arrObjC3 : AttributeExpr := .mk (.array elemObjC3) []

/-- An array whose element type is an array of primitives: the element type
is neither primitive nor an object. -/
def arrArrC3 : AttributeExpr := .mk (.array arrPrimC3) []

/-- A schema node matching none of the four structural classifications. -/
def unsupC7 : AttributeExpr := .mk (.unsupported "Func") []

def keyC10 : AttributeExpr := .mk (.primitive "String") []

def valC10 : AttributeExpr := .mk (.array (.mk (.primitive "Int") [])) []

/-- A map from a primitive key to an array-of-primitive value: neither side
is an object. -/
def mapC10 : AttributeExpr := .mk (.hash keyC10 valC10) []

/-! ## Helper lemmas -/

theorem AsArray_classify {t : GoDataType} {e : AttributeExpr}
    (h : AsArray t = some e) :
    IsPrimitive t = false ∧ IsObject t = false ∧ IsArray t = true := by
  unfold AsArray at h
  unfold IsPrimitive IsObject IsArray
  cases hr : resolve t <;> rw [hr] at h <;> simp_all

theorem AsMap_classify {t : GoDataType} {k v : AttributeExpr}
    (h : AsMap t = some (k, v)) :
    IsPrimitive t = false ∧ IsObject t = false ∧ IsArray t = false ∧
      IsMap t = true := by
  unfold AsMap at h
  unfold IsPrimitive IsObject IsArray IsMap
  cases hr : resolve t <;> rw [hr] at h <;> simp_all

theorem AsObject_classify {t : GoDataType} {f : Fields}
    (h : AsObject t = some f) :
    IsPrimitive t = false ∧ IsObject t = true := by
  unfold AsObject at h
  unfold IsPrimitive IsObject
  cases hr : resolve t <;> rw [hr] at h <;> simp_all

theorem paramsOf_error : (l : List Arg) → (e : Err) →
    paramsOf l = .error e → e = Err.invalidTemplateParameter
  | [], e => by intro h; simp [paramsOf] at h
  | Arg.str s :: rest, e => by
      simp only [paramsOf]
      cases hp : paramsOf rest with
      | error e2 =>
          intro h
          simp [Except.map] at h
          subst h
          exact paramsOf_error rest _ hp
      | ok ps => simp [Except.map]
  | Arg.dtype d :: rest, e => by
      intro h
      simp only [paramsOf, Except.error.injEq] at h
      first
        | exact h
        | exact h.symm
  | Arg.block b :: rest, e => by
      intro h
      simp only [paramsOf, Except.error.injEq] at h
      first
        | exact h
        | exact h.symm
  | Arg.other :: rest, e => by
      intro h
      simp only [paramsOf, Except.error.injEq] at h
      first
        | exact h
        | exact h.symm

theorem paramsOf_length : (l : List Arg) → (ps : List String) →
    paramsOf l = .ok ps → ps.length = l.length
  | [], ps => by
      intro h
      simp [paramsOf] at h
      simp [← h]
  | Arg.str s :: rest, ps => by
      simp only [paramsOf]
      cases hp : paramsOf rest with
      | error e2 => simp [Except.map]
      | ok ps2 =>
          intro h
          simp [Except.map] at h
          have hlen := paramsOf_length rest ps2 hp
          simp [← h, hlen]
  | Arg.dtype d :: rest, ps => by intro h; simp [paramsOf] at h
  | Arg.block b :: rest, ps => by intro h; simp [paramsOf] at h
  | Arg.other :: rest, ps => by intro h; simp [paramsOf] at h

theorem applyBodyType_standard (dt : Option GoDataType)
    (x : HTTPResponseExpr) (h : x.standard = false) :
    (applyBodyType dt x).standard = false := by
  cases dt with
  | none => simpa [applyBodyType]
  | some d => cases d <;> simp [applyBodyType]

theorem walkFields_eq_map : (flds : Fields) → ∀ (att : AttributeExpr)
    (source target : String) (depth : Nat),
    walkFields att flds source target depth =
      flds.toList.map (fun p =>
        Tabs depth ++ "if " ++ source ++ "." ++ Goify p.1 true ++ " != nil \x7b\n" ++
          Publicizer p.2 (source ++ "." ++ Goify p.1 true)
            (target ++ "." ++ Goify p.1 true)
            (IsPrimitive p.2.typ && !(att.IsPrimitivePointer p.1)) (depth + 1)
            false ++
          "\n" ++ Tabs depth ++ "\x7d")
  | .nil, att, source, target, depth => by rw [walkFields]; rfl
  | .cons n a rest, att, source, target, depth => by
      rw [walkFields, walkFields_eq_map rest]
      rfl

/-! ## Claim theorems -/

/-- C1: for every scope (action or resource) and every response name,
invoking `Response` with a name already present in that scope reports
exactly one duplicate-definition error and leaves the scope's response
collection unchanged — the second definition has no effect. -/
theorem response_duplicate_single_error_no_mutation (root : DesignRoot)
    (ctx : EvalContext) (name : String) (args : List Arg)
    (h : scopeHasResponse ctx name = true) :
    Response root ctx name args = (ctx, [Err.duplicateDefinition name]) := by
  cases ctx with
  | action a =>
      simp only [scopeHasResponse] at h
      simp [Response, h]
  | resource r =>
      simp only [scopeHasResponse] at h
      simp [Response, h]
  | response r => simp [scopeHasResponse] at h
  | other => simp [scopeHasResponse] at h

/-- Witness for C1 at a concrete action scope already holding a response
named "OK". -/
theorem response_duplicate_single_error_no_mutation_witness :
    Response {} (.action actC1) "OK" [] =
      (.action actC1, [Err.duplicateDefinition "OK"]) :=
  response_duplicate_single_error_no_mutation {} (.action actC1) "OK" []
    (by rfl)

/-- C4: whenever positional template-parameter arguments remain after
extracting the trailing configuration block and the body-type token, the
definition fails with a descriptive error (`invalid response template
parameter` or `no response template named`) and no response is attached to
the scope, regardless of the scope type. -/
theorem template_params_always_rejected (root : DesignRoot)
    (ctx : EvalContext) (name : String) (args : List Arg)
    (hres : (residualParams args).isEmpty = false) :
    (executeResponseDSL root name args = .error Err.invalidTemplateParameter ∨
      executeResponseDSL root name args = .error (Err.noResponseTemplate name)) ∧
    (Response root ctx name args).1 = ctx := by
  have hexec :
      executeResponseDSL root name args = .error Err.invalidTemplateParameter ∨
      executeResponseDSL root name args = .error (Err.noResponseTemplate name) := by
    unfold executeResponseDSL
    cases hp : paramsOf (residualParams args) with
    | error e =>
        left
        have he := paramsOf_error _ _ hp
        subst he
        rfl
    | ok params =>
        right
        have hlen := paramsOf_length _ _ hp
        have hpos : params.length > 0 := by
          rw [hlen]
          cases hq : residualParams args with
          | nil => rw [hq] at hres; simp [List.isEmpty] at hres
          | cons x xs => simp
        simp [hpos]
  refine ⟨hexec, ?_⟩
  cases ctx with
  | action a =>
      by_cases hdup : (a.Response name).isSome
      · simp [Response, hdup]
      · rcases hexec with h | h <;> simp [Response, hdup, h]
  | resource r =>
      by_cases hdup : (r.Response name).isSome
      · simp [Response, hdup]
      · rcases hexec with h | h <;> simp [Response, hdup, h]
  | response r => simp [Response]
  | other => simp [Response]

/-- Witness for C4: a single positional string parameter is rejected and
the empty action scope is unchanged. -/
theorem template_params_always_rejected_witness :
    (executeResponseDSL {} "OK" [Arg.str "p"] =
        .error Err.invalidTemplateParameter ∨
      executeResponseDSL {} "OK" [Arg.str "p"] =
        .error (Err.noResponseTemplate "OK")) ∧
    (Response {} (.action {}) "OK" [Arg.str "p"]).1 = .action {} :=
  template_params_always_rejected {} (.action {}) "OK" [Arg.str "p"] (by rfl)

/-- C5: the base expression is resolved in the fixed order — a user-defined
registry response with the exact name is duplicated; otherwise a built-in
default-response template with that name is duplicated with the standard
flag set; otherwise a fresh expression with only the name set is built.
With no arguments, `executeResponseDSL` yields exactly this base. -/
theorem base_response_resolution_order (root : DesignRoot) (name : String) :
    baseResponse root name =
      ((root.Response name).map HTTPResponseExpr.Dup).getD
        (((root.DefaultResponse name).map
            (fun ar => { ar.Dup with standard := true })).getD
          { name := name }) ∧
    executeResponseDSL root name [] = .ok (baseResponse root name) := by
  constructor
  · unfold baseResponse
    cases root.Response name <;> cases root.DefaultResponse name <;> simp
  · rfl

/-- C6: when the built response has final status 200 and an unset media
type, the owning scope's default media type is copied into it before it is
attached (for an action scope: its resource's media type); in every other
case the response is attached exactly as produced. -/
theorem response_default_media_type_fill (root : DesignRoot) (a : ActionExpr)
    (r : ResourceExpr) (name : String) (args : List Arg)
    (resp : HTTPResponseExpr)
    (ha : a.Response name = none) (hr : r.Response name = none)
    (hok : executeResponseDSL root name args = .ok resp) :
    Response root (.action a) name args =
      (.action { a with responses :=
        a.responses ++ [fillDefault a.resource.mediaType resp] }, []) ∧
    Response root (.resource r) name args =
      (.resource { r with responses :=
        r.responses ++ [fillDefault r.mediaType resp] }, []) ∧
    (∀ mt, resp.status = 200 → resp.mediaType = "" →
      fillDefault mt resp = { resp with mediaType := mt }) ∧
    (∀ mt, resp.status ≠ 200 ∨ resp.mediaType ≠ "" →
      fillDefault mt resp = resp) := by
  refine ⟨?_, ?_, ?_, ?_⟩
  · simp [Response, ha, hok]
  · simp [Response, hr, hok]
  · intro mt h1 h2
    simp [fillDefault, h1, h2]
  · intro mt h
    have hcond : (resp.status == 200 && resp.mediaType == "") = false := by
      rcases h with h | h <;> simp [h]
    simp [fillDefault, hcond]

/-- Witness for C6: the default "OK" template (status 200, media type
unset) inherits the owning scopes' default media types when attached. -/
theorem response_default_media_type_fill_witness :
    Response rootC6 (.action actC6) "OK" [] =
      (.action { actC6 with responses :=
        actC6.responses ++ [fillDefault actC6.resource.mediaType respC6] }, []) ∧
    Response rootC6 (.resource resC6) "OK" [] =
      (.resource { resC6 with responses :=
        resC6.responses ++ [fillDefault resC6.mediaType respC6] }, []) :=
  ⟨(response_default_media_type_fill rootC6 actC6 resC6 "OK" [] respC6
      rfl rfl rfl).1,
   (response_default_media_type_fill rootC6 actC6 resC6 "OK" [] respC6
      rfl rfl rfl).2.1⟩

/-- C8: `Status` succeeds — reporting no diagnostic — exactly when the
current evaluation context is a response expression, in which case it sets
the status field; against any other context it reports an
incompatible-context error and changes nothing. -/
theorem status_requires_response_context (ctx : EvalContext) (code : Nat) :
    ((Status ctx code).2 = [] ↔ isResponseContext ctx = true) ∧
    (∀ r, ctx = .response r →
      Status ctx code = (.response { r with status := code }, [])) ∧
    (isResponseContext ctx = false →
      Status ctx code = (ctx, [Err.incompatibleDSL])) := by
  cases ctx <;> simp [Status, isResponseContext]

/-- Witness for C8 at a concrete response context. -/
theorem status_requires_response_context_witness :
    Status (.response respC8) 201 =
      (.response { respC8 with status := 201 }, []) :=
  (status_requires_response_context (.response respC8) 201).2.1 respC8 rfl

/-- C9: whenever a configuration block is supplied and the definition
succeeds, the resulting expression's standard flag is false — even when the
base was a built-in default template and the block made no change. -/
theorem dsl_block_clears_standard_flag (root : DesignRoot) (name : String)
    (args : List Arg) (resp : HTTPResponseExpr)
    (hb : (extractDSL args).1.isSome = true)
    (hok : executeResponseDSL root name args = .ok resp) :
    resp.standard = false := by
  unfold executeResponseDSL at hok
  cases hp : paramsOf (residualParams args) <;> rw [hp] at hok
  · simp at hok
  · rename_i params
    by_cases hlen : params.length > 0
    · simp [hlen] at hok
    · simp only [hlen, if_false] at hok
      cases hdsl : (extractDSL args).1 with
      | none => rw [hdsl] at hb; simp at hb
      | some b =>
          rw [hdsl] at hok
          simp only [applyDSLBlock] at hok
          cases hbr : b (baseResponse root name) with
          | none => rw [hbr] at hok; simp at hok
          | some r2 =>
              rw [hbr] at hok
              simp only [Except.ok.injEq] at hok
              rw [← hok]
              exact applyBodyType_standard _ _ rfl

/-- Witness for C9: a no-op block on the standard "OK" default template
still clears the standard flag. -/
theorem dsl_block_clears_standard_flag_witness : respC9.standard = false :=
  dsl_block_clears_standard_flag rootC9 "OK" [Arg.block (fun x => some x)]
    respC9 (by rfl) (by rfl)

/-- C2 counterexample: in `objC2` the field `b` is a required nested-object
(user type) field, yet its delegated `.Publicize()` publication is wrapped
in an `if src.B != nil` guard — the guard is not reserved to optional
fields, contradicting the claim's "unconditional (unguarded) delegated
call" for required nested objects. -/
theorem required_nested_object_guard_cex :
    objC2.required.contains "b" = true ∧
    IsObject userC2.typ = true ∧
    IsPrimitive userC2.typ = false ∧
    ((recursivePublications objC2 "src" "tgt" 0).all
      (fun pub => pub.toList.take 7 == "if src.".toList)) = true ∧
    recursivePublications objC2 "src" "tgt" 0 =
      ["if src.A != nil \x7b\n\ttgt.A = src.A\n\x7d",
       "if src.B != nil \x7b\n\ttgt.B = src.B.Publicize()\n\x7d"] := by
  have heval : recursivePublications objC2 "src" "tgt" 0 =
      ["if src.A != nil \x7b\n\ttgt.A = src.A\n\x7d",
       "if src.B != nil \x7b\n\ttgt.B = src.B.Publicize()\n\x7d"] := by
    rw [recursivePublications]
    simp only [AsObject, resolve, AttributeExpr.typ]
    rw [walkFields_eq_map]
    simp only [Fields.toList, List.map]
    rw [Publicizer, Publicizer]
    rfl
  refine ⟨rfl, rfl, rfl, ?_, heval⟩
  rw [heval]
  rfl

/-- C2 (amended): when synthesizing an anonymous Object node, every field's
recursive transformation — optional or required — is wrapped in an
"if source field is not nil" guard; optionality only controls the
dereference flag of the recursive call (required primitive fields are
dereferenced, optional ones are not). -/
theorem object_fields_always_guarded (att : AttributeExpr) (flds : Fields)
    (source target : String) (depth : Nat)
    (ho : AsObject att.typ = some flds) :
    recursivePublications att source target depth =
      flds.toList.map (fun p =>
        Tabs depth ++ "if " ++ source ++ "." ++ Goify p.1 true ++ " != nil \x7b\n" ++
          Publicizer p.2 (source ++ "." ++ Goify p.1 true)
            (target ++ "." ++ Goify p.1 true)
            (IsPrimitive p.2.typ &&
              !((unwrapUserType att).IsPrimitivePointer p.1)) (depth + 1)
            false ++
          "\n" ++ Tabs depth ++ "\x7d") := by
  rw [recursivePublications]
  split
  · rename_i flds2 heq
    rw [ho] at heq
    injection heq with h2
    subst h2
    exact walkFields_eq_map _ (unwrapUserType att) source target depth
  · rename_i heq
    rw [ho] at heq
    simp at heq

/-- Witness for C2 (amended) at the concrete two-field object: the optional
primitive field gets a guarded undereferenced copy, the required nested
object gets a guarded delegated call. -/
theorem object_fields_always_guarded_witness :
    recursivePublications objC2 "src" "tgt" 0 =
      ["if src.A != nil \x7b\n\ttgt.A = src.A\n\x7d",
       "if src.B != nil \x7b\n\ttgt.B = src.B.Publicize()\n\x7d"] :=
  (object_fields_always_guarded objC2
      (.cons "a" (.mk (.primitive "Int") []) (.cons "b" userC2 .nil))
      "src" "tgt" 0 rfl).trans (by
    simp only [Fields.toList, List.map]
    rw [Publicizer, Publicizer]
    rfl)

/-- C3 counterexample: the element type of `arrArrC3` (an array of arrays
of primitives) is not primitive, yet the synthesizer emits the direct
whole-sequence copy instead of an allocation and an index loop —
contradicting "for every Array node whose element type is not primitive it
emits an allocation … followed by an index loop". -/
theorem array_nonprimitive_elem_direct_copy_cex :
    IsPrimitive arrPrimC3.typ = false ∧
    IsObject arrPrimC3.typ = false ∧
    Publicizer arrArrC3 "src" "tgt" false 1 false = "\ttgt = src" := by
  refine ⟨rfl, rfl, ?_⟩
  rw [Publicizer]
  rfl

/-- C3 (amended): for every Array node the synthesizer emits the direct
whole-sequence copy (identical to the Primitive case) exactly when the
element type is not an object; when the element type is an object it emits
an allocation sized by the runtime length of the source followed by an
index loop with a per-element recursive call. -/
theorem array_element_dispatch (att elemAtt : AttributeExpr) (s t : String)
    (dr : Bool) (d : Nat) (i : Bool)
    (ha : AsArray att.typ = some elemAtt) :
    (IsObject elemAtt.typ = false →
      Publicizer att s t dr d i = simplePublicize s t dr d i) ∧
    (IsObject elemAtt.typ = true →
      Publicizer att s t dr d i =
        Tabs d ++ t ++ " " ++ (if i then ":" else "") ++ "= make(" ++
          GoTypeRef att.typ att.AllRequired d false ++ ", len(" ++ s ++
          "))\n" ++
        Tabs d ++ "for i" ++ toString d ++ ", elem" ++ toString d ++
          " := range " ++ s ++ " \x7b\n" ++
        Tabs d ++
          Publicizer elemAtt ("elem" ++ toString d)
            (t ++ "[i" ++ toString d ++ "]") dr (d + 1) false ++ "\n" ++
        Tabs d ++ "\x7d") := by
  obtain ⟨hp, hob, harr⟩ := AsArray_classify ha
  constructor <;> intro hel
  · rw [Publicizer]
    simp only [hp, hob, harr, Bool.false_eq_true, if_false, if_true]
    split
    · rename_i e heq
      rw [ha] at heq
      injection heq with h2
      subst h2
      simp [hel]
    · rename_i heq
      rw [ha] at heq
      simp at heq
  · rw [Publicizer]
    simp only [hp, hob, harr, Bool.false_eq_true, if_false, if_true]
    split
    · rename_i e heq
      rw [ha] at heq
      injection heq with h2
      subst h2
      simp [hel]
    · rename_i heq
      rw [ha] at heq
      simp at heq

/-- Witness for C3 (amended): an array of primitives gets the direct copy;
an array of objects gets the runtime-length allocation plus index loop with
a delegated per-element call. -/
theorem array_element_dispatch_witness :
    Publicizer arrPrimC3 "src" "tgt" false 1 false = "\ttgt = src" ∧
    Publicizer arrObjC3 "src" "tgt" false 1 false =
      "\ttgt = make([]*Bottle, len(src))\n\tfor i1, elem1 := range src \x7b\n\t\t\ttgt[i1] = elem1.Publicize()\n\t\x7d" := by
  constructor
  · have h := (array_element_dispatch arrPrimC3 elemPrimC3
      "src" "tgt" false 1 false rfl).1 rfl
    rw [h]
    rfl
  · have h := (array_element_dispatch arrObjC3 elemObjC3
      "src" "tgt" false 1 false rfl).2 rfl
    rw [h, Publicizer]
    rfl

/-- C7: the four structural classifications are mutually exclusive — at
most one of the dispatch predicates holds for any schema node — and a node
matching none of them synthesizes to empty output rather than an error. -/
theorem publicizer_unmatched_node_empty (att : AttributeExpr) (s t : String)
    (dr : Bool) (d : Nat) (i : Bool)
    (h1 : IsPrimitive att.typ = false) (h2 : IsObject att.typ = false)
    (h3 : IsArray att.typ = false) (h4 : IsMap att.typ = false) :
    Publicizer att s t dr d i = "" ∧
    ∀ u : GoDataType,
      (IsPrimitive u).toNat + (IsObject u).toNat + (IsArray u).toNat +
        (IsMap u).toNat ≤ 1 := by
  constructor
  · rw [Publicizer]
    simp [h1, h2, h3, h4]
  · intro u
    unfold IsPrimitive IsObject IsArray IsMap
    cases resolve u <;> simp

/-- Witness for C7 at a node that is neither primitive nor object nor array
nor map. -/
theorem publicizer_unmatched_node_empty_witness :
    Publicizer unsupC7 "src" "tgt" false 0 false = "" :=
  (publicizer_unmatched_node_empty unsupC7 "src" "tgt" false 0 false
    rfl rfl rfl rfl).1

/-- C10: a Map node whose key type and element type are both non-object is
synthesized as a single direct assignment of the whole map, identical to
the Primitive case — no allocation, no key/value loop. -/
theorem map_nonobject_direct_copy (att kAtt vAtt : AttributeExpr)
    (s t : String) (dr : Bool) (d : Nat) (i : Bool)
    (hm : AsMap att.typ = some (kAtt, vAtt))
    (hk : IsObject kAtt.typ = false) (hv : IsObject vAtt.typ = false) :
    Publicizer att s t dr d i = simplePublicize s t dr d i ∧
    Publicizer att s t dr d i =
      Publicizer (.mk (.primitive "String") []) s t dr d i := by
  obtain ⟨hp, hob, harr, hmp⟩ := AsMap_classify hm
  have h1 : Publicizer att s t dr d i = simplePublicize s t dr d i := by
    rw [Publicizer]
    simp only [hp, hob, harr, hmp, Bool.false_eq_true, if_false, if_true]
    split
    · rename_i k v heq
      rw [hm] at heq
      simp only [Option.some.injEq, Prod.mk.injEq] at heq
      obtain ⟨hk2, hv2⟩ := heq
      subst hk2
      subst hv2
      simp [hk, hv]
    · rename_i heq
      rw [hm] at heq
      simp at heq
  exact ⟨h1, h1.trans (by rw [Publicizer]; rfl)⟩

/-- Witness for C10 at a concrete map from a primitive key to an
array-of-primitive value. -/
theorem map_nonobject_direct_copy_witness :
    Publicizer mapC10 "src" "tgt" false 1 false = "\ttgt = src" := by
  have h := (map_nonobject_direct_copy mapC10 keyC10 valC10
    "src" "tgt" false 1 false rfl rfl rfl).1
  rw [h]
  rfl

end GoaSpec
